import Mathlib

/-!
Verification of the longtrace tracing library (src/lib.rs) against its
natural-language specification.  The Rust code is shallowly embedded:
pure control flow becomes Lean functions, the external PostgreSQL server
is modelled by an explicit world (the set of existing database names;
a connection to a database succeeds exactly when that database exists,
and statements executed over an established connection succeed), and
side effects (DDL statements, diagnostic prints, row inserts) are
returned as explicit effect traces.
-/

/-- 128-bit UUID, abstracted to a tag.  Only equality of UUIDs matters to
the claims under verification. -/
structure Uuid where
  val : Nat
deriving DecidableEq, Repr

/-- The all-zero UUID (uuid::Uuid::nil). -/
def Uuid.nil : Uuid := ⟨0⟩

/-- std::thread::ThreadId, abstracted to a tag. -/
abbrev ThreadId := Nat

/-- The Record struct of src/lib.rs (lines 16-24).  The chrono
NaiveDateTime timestamp is abstracted to a tick count; attr is the raw
JSON string exactly as in the source. -/
structure Record where
  span_id : Uuid
  parent_id : Uuid
  record_type : Int
  timestamp : Nat
  message : String
  attr : Option String
deriving DecidableEq, Repr

-- ## Provisioner (RustDatabase::new, src/lib.rs lines 42-142)

/-- The external PostgreSQL server, modelled as the list of database
names that currently exist on the endpoint. -/
structure PgWorld where
  databases : List String
deriving DecidableEq, Repr

/-- Observable effects of RustDatabase::new, in program order:
connection to the maintenance database, the pg_database existence query
with its result, the CREATE DATABASE DDL (with the exact statement text
built by format!), connection of the pool to the target database, and
the schema DDL. -/
inductive InitEffect where
  | connectMaintenance (dbname : String)
  | queryDbExists (name : String) (result : Bool)
  | createDatabase (ddl : String)
  | poolConnect (dbname : String)
  | createSchema (ddl : String)
deriving DecidableEq, Repr

/-- The data of a successfully built RustDatabase that the claims
observe: the effective database name and the batch size. -/
structure InitOk where
  db_name : String
  batch_size : Nat
deriving DecidableEq, Repr

/-- A local calendar date as supplied by chrono Local::now(). -/
structure LocalDate where
  year : Nat
  month : Nat
  day : Nat
deriving DecidableEq, Repr

/-- The ASCII digit character for n mod 10. -/
def digitChar (n : Nat) : Char :=
  match n % 10 with
  | 0 => '0' | 1 => '1' | 2 => '2' | 3 => '3' | 4 => '4'
  | 5 => '5' | 6 => '6' | 7 => '7' | 8 => '8' | _ => '9'

/-- chrono format "%Y%m%d" (src/lib.rs line 56): the year zero-padded to
4 digits, month and day zero-padded to 2 digits.  Faithful to chrono for
real local dates (years up to 9999; chrono would print a sign for years
beyond that range, which no wall clock produces). -/
def formatYYYYMMDD (d : LocalDate) : String :=
  String.mk [digitChar (d.year / 1000), digitChar (d.year / 100),
             digitChar (d.year / 10), digitChar d.year,
             digitChar (d.month / 10), digitChar d.month,
             digitChar (d.day / 10), digitChar d.day]

/-- The target database name: the caller-supplied override verbatim when
present, otherwise the current local date in YYYYMMDD form
(src/lib.rs lines 49-74). -/
def targetDbName (today : LocalDate) (db_name : Option String) : String :=
  match db_name with
  | some n => n
  | none => formatYYYYMMDD today

/-- The exact schema DDL executed at initialization
(src/lib.rs lines 88-99), whitespace flattened. -/
def create_table_query : String :=
  "CREATE TABLE IF NOT EXISTS records (id BIGSERIAL PRIMARY KEY, span_id UUID, parent_id UUID, type INTEGER, timestamp TIMESTAMP, message TEXT, attr JSONB); CREATE INDEX IF NOT EXISTS idx_records_parent_id ON records(parent_id);"

/-- Shallow embedding of RustDatabase::new (src/lib.rs lines 42-142),
minus the writer thread spawn (modelled separately as writerGo).
parseOk models whether Config::from_str accepts the connection string.
A connection to a database succeeds exactly when that database exists in
the world; queries and DDL over an established connection succeed, and
CREATE DATABASE makes the subsequent pool connection to the created
database succeed.  Note the source checks or creates the database only
on the derived-name path: a caller-supplied name skips the whole
maintenance block. -/
def RustDatabase.new (world : PgWorld) (parseOk : Bool) (today : LocalDate)
    (batch_size : Option Nat) (db_name : Option String) :
    Except String InitOk × List InitEffect :=
  if parseOk = false then (Except.error "Invalid connection string", [])
  else
    match db_name with
    | some name =>
      if name ∈ world.databases then
        (Except.ok ⟨name, batch_size.getD 1024⟩,
         [InitEffect.poolConnect name, InitEffect.createSchema create_table_query])
      else
        (Except.error "Failed to create connection pool",
         [InitEffect.poolConnect name])
    | none =>
      if "postgres" ∈ world.databases then
        if formatYYYYMMDD today ∈ world.databases then
          (Except.ok ⟨formatYYYYMMDD today, batch_size.getD 1024⟩,
           [InitEffect.connectMaintenance "postgres",
            InitEffect.queryDbExists (formatYYYYMMDD today) true,
            InitEffect.poolConnect (formatYYYYMMDD today),
            InitEffect.createSchema create_table_query])
        else
          (Except.ok ⟨formatYYYYMMDD today, batch_size.getD 1024⟩,
           [InitEffect.connectMaintenance "postgres",
            InitEffect.queryDbExists (formatYYYYMMDD today) false,
            InitEffect.createDatabase ("CREATE DATABASE \"" ++ formatYYYYMMDD today ++ "\""),
            InitEffect.poolConnect (formatYYYYMMDD today),
            InitEffect.createSchema create_table_query])
      else
        (Except.error "Failed to connect to maintenance DB",
         [InitEffect.connectMaintenance "postgres"])

deriving instance DecidableEq for Except

/-- Whether an Except value is the ok constructor. -/
def exceptIsOk (e : Except String InitOk) : Bool :=
  match e with
  | Except.ok _ => true
  | Except.error _ => false

-- ## Schema as structured columns (claim C4)

/-- SQL column types occurring in the records schema. -/
inductive SqlType where
  | bigserial | uuid | integer | timestamp | timestamptz | text | jsonb
deriving DecidableEq, Repr

/-- One column declaration: name, type, whether an explicit NOT NULL
constraint is written, whether PRIMARY KEY is written. -/
structure SqlColumn where
  colName : String
  colType : SqlType
  notNull : Bool
  primaryKey : Bool
deriving DecidableEq, Repr

/-- A single-column index declaration. -/
structure SqlIndex where
  idxName : String
  table : String
  column : String
deriving DecidableEq, Repr

/-- The columns of the CREATE TABLE statement the code actually executes
(src/lib.rs lines 88-99): no column carries an explicit NOT NULL, and
the timestamp column is TIMESTAMP (without time zone). -/
def recordsColumns : List SqlColumn :=
  [⟨"id", SqlType.bigserial, false, true⟩,
   ⟨"span_id", SqlType.uuid, false, false⟩,
   ⟨"parent_id", SqlType.uuid, false, false⟩,
   ⟨"type", SqlType.integer, false, false⟩,
   ⟨"timestamp", SqlType.timestamp, false, false⟩,
   ⟨"message", SqlType.text, false, false⟩,
   ⟨"attr", SqlType.jsonb, false, false⟩]

/-- The index the code creates (src/lib.rs line 98). -/
def recordsIndex : SqlIndex := ⟨"idx_records_parent_id", "records", "parent_id"⟩

/-- Modelled from the spec: the records schema exactly as the schema
block of the specification writes it (span_id UUID NOT NULL, type
INTEGER NOT NULL, timestamp TIMESTAMPTZ NOT NULL), for comparison with
the schema the code executes. -/
def specRecordsColumns : List SqlColumn :=
  [⟨"id", SqlType.bigserial, false, true⟩,
   ⟨"span_id", SqlType.uuid, true, false⟩,
   ⟨"parent_id", SqlType.uuid, false, false⟩,
   ⟨"type", SqlType.integer, true, false⟩,
   ⟨"timestamp", SqlType.timestamptz, true, false⟩,
   ⟨"message", SqlType.text, false, false⟩,
   ⟨"attr", SqlType.jsonb, false, false⟩]

-- ## Registry (src/lib.rs lines 227-252)

/-- Shallow embedding of the module-level initialize function
(src/lib.rs lines 231-252): the slot is the REGISTRY contents at entry;
the result pairs the slot contents after the call with the returned
value.  A non-empty slot is rejected before building anything; an empty
slot builds a RustDatabase, stores it on success and returns its
effective name. -/
def initRegistry (slot : Option InitOk) (world : PgWorld) (parseOk : Bool)
    (today : LocalDate) (bs : Option Nat) (nm : Option String) :
    Option InitOk × Except String String :=
  match slot with
  | some h => (some h, Except.error "Database already initialized")
  | none =>
    match (RustDatabase.new world parseOk today bs nm).1 with
    | Except.ok db => (some db, Except.ok db.db_name)
    | Except.error e => (none, Except.error e)

-- ## Helper lemmas

-- ## Batcher: flush_batch (src/lib.rs lines 144-187) and the writer
-- loop (src/lib.rs lines 109-134)

/-- A structured JSON value as produced by serde_json::from_str; its
contents are irrelevant to the claims, only whether parsing succeeded. -/
structure JsonValue where
  repr : String
deriving DecidableEq, Repr

/-- Observable effects of one flush_batch call, in program order:
the diagnostic line for a failed attr parse, the attempted INSERT with
the bound attr value, the diagnostic line for a failed insert, and the
diagnostic line for a failed pool acquisition. -/
inductive FlushEffect where
  | warnAttrParse (s : String)
  | insert (r : Record) (attr : Option JsonValue)
  | warnInsertFailed (r : Record)
  | warnPoolFailed
deriving DecidableEq, Repr

/-- The per-record loop of flush_batch (src/lib.rs lines 153-179):
parse the attr JSON string when present (warn and bind NULL on
failure), attempt the INSERT, warn when the INSERT fails.  parse models
serde_json::from_str; execOk i models whether the INSERT of the row at
index i succeeds on the connection; i is the index of the current row. -/
def flushRows (parse : String → Option JsonValue) (execOk : Nat → Bool) :
    Nat → List Record → List FlushEffect
  | _, [] => []
  | i, r :: rest =>
    (match r.attr with
     | some s =>
       match parse s with
       | some v => [FlushEffect.insert r (some v)]
       | none => [FlushEffect.warnAttrParse s, FlushEffect.insert r none]
     | none => [FlushEffect.insert r none]) ++
    (if execOk i then [] else [FlushEffect.warnInsertFailed r]) ++
    flushRows parse execOk (i + 1) rest

/-- Shallow embedding of RustDatabase::flush_batch (src/lib.rs lines
144-187).  poolOk models whether pool.get() succeeds.  Returns the batch
vector after the call together with the effect trace: an empty batch
returns early; with a connection every row is processed and the batch is
cleared; when pool acquisition fails only a diagnostic is emitted and
the batch is left untouched. -/
def flush_batch (parse : String → Option JsonValue) (poolOk : Bool)
    (execOk : Nat → Bool) (batch : List Record) :
    List Record × List FlushEffect :=
  if batch.isEmpty then (batch, [])
  else if poolOk then ([], flushRows parse execOk 0 batch)
  else (batch, [FlushEffect.warnPoolFailed])

/-- Whether a FlushEffect is an attempted INSERT. -/
def isInsertEff (e : FlushEffect) : Bool :=
  match e with
  | FlushEffect.insert _ _ => true
  | _ => false

/-- The commands received by the writer thread over the mpsc channel
(src/lib.rs lines 35-39). -/
inductive BatchCommand where
  | record (r : Record)
  | flush
  | shutdown
deriving DecidableEq, Repr

/-- The outcome of a writer-thread run: the batch arguments of each
flush_batch call in order, the concatenated flush effects, and the
contents of the batch vector at the moment the loop breaks. -/
structure WriterResult where
  flushCalls : List (List Record)
  effects : List FlushEffect
  exitBatch : List Record
deriving DecidableEq, Repr

/-- Shallow embedding of the writer-thread loop (src/lib.rs lines
109-134).  The list of commands is what recv returns before the channel
reports closed (recv Err); a shutdown command breaks out before any
later command.  k counts flush_batch calls so the pool and insert
oracles can vary per call; flush_batch may leave the batch non-empty
when the pool fails, exactly as in the source.  The Err branch of the
source is the [] case: break, with no flush. -/
def writerGo (parse : String → Option JsonValue) (poolOk : Nat → Bool)
    (execOk : Nat → Nat → Bool) (B : Nat) :
    Nat → List Record → List (List Record) → List FlushEffect →
    List BatchCommand → WriterResult
  | _, batch, calls, effs, [] => ⟨calls, effs, batch⟩
  | k, batch, calls, effs, BatchCommand.record r :: rest =>
    let batch2 := batch ++ [r]
    if B ≤ batch2.length then
      let fb := flush_batch parse (poolOk k) (execOk k) batch2
      writerGo parse poolOk execOk B (k + 1) fb.1 (calls ++ [batch2]) (effs ++ fb.2) rest
    else
      writerGo parse poolOk execOk B k batch2 calls effs rest
  | k, batch, calls, effs, BatchCommand.flush :: rest =>
    if batch.isEmpty then
      writerGo parse poolOk execOk B k batch calls effs rest
    else
      let fb := flush_batch parse (poolOk k) (execOk k) batch
      writerGo parse poolOk execOk B (k + 1) fb.1 (calls ++ [batch]) (effs ++ fb.2) rest
  | k, batch, calls, effs, BatchCommand.shutdown :: _ =>
    if batch.isEmpty then ⟨calls, effs, batch⟩
    else
      let fb := flush_batch parse (poolOk k) (execOk k) batch
      ⟨calls ++ [batch], effs ++ fb.2, fb.1⟩

/-- The writer loop entered with an already-accumulated batch. -/
def writerRunFrom (parse : String → Option JsonValue) (poolOk : Nat → Bool)
    (execOk : Nat → Nat → Bool) (B : Nat) (batch : List Record)
    (cmds : List BatchCommand) : WriterResult :=
  writerGo parse poolOk execOk B 0 batch [] [] cmds

/-- A full writer-thread run from the empty batch. -/
def writerRun (parse : String → Option JsonValue) (poolOk : Nat → Bool)
    (execOk : Nat → Nat → Bool) (B : Nat) (cmds : List BatchCommand) :
    WriterResult :=
  writerRunFrom parse poolOk execOk B [] cmds

-- ## Tracer and SpanGuard (src/lib.rs lines 267-407)

/-- Lookup in the DashMap of per-thread stacks (states.get). -/
def mapGet : List (ThreadId × List Uuid) → ThreadId → Option (List Uuid)
  | [], _ => none
  | (t2, s2) :: rest, t => if t2 = t then some s2 else mapGet rest t

/-- Update or insert in the DashMap of per-thread stacks (the combined
effect of states.entry(tid).or_insert and an in-place mutation). -/
def mapSet : List (ThreadId × List Uuid) → ThreadId → List Uuid →
    List (ThreadId × List Uuid)
  | [], t, s => [(t, s)]
  | (t2, s2) :: rest, t, s =>
    if t2 = t then (t, s) :: rest else (t2, s2) :: mapSet rest t s

/-- The TracerInner struct (src/lib.rs lines 267-270): the initial
parent id and the map from thread identity to that thread's span stack.
A Rust Vec is a Lean list whose last element is the Vec top (push and
pop act at the end, stack.last() reads the end). -/
structure TracerInner where
  initial_parent_id : Uuid
  states : List (ThreadId × List Uuid)
deriving DecidableEq, Repr

/-- Tracer::get_current_parent_id (src/lib.rs lines 322-332): the top of
the calling thread's stack when the map has a non-empty stack for it,
otherwise the initial parent id. -/
def Tracer.get_current_parent_id (tr : TracerInner) (tid : ThreadId) : Uuid :=
  match mapGet tr.states tid with
  | some stack =>
    match stack.getLast? with
    | some last => last
    | none => tr.initial_parent_id
  | none => tr.initial_parent_id

/-- Tracer::log (src/lib.rs lines 300-309): resolve the current parent,
then emit a type 0 record under the freshly generated span id (passed
here as a parameter, like the captured timestamp). -/
def Tracer.log (tr : TracerInner) (tid : ThreadId) (span_id : Uuid)
    (now : Nat) (message : String) (attr : Option String) : Record :=
  ⟨span_id, Tracer.get_current_parent_id tr tid, 0, now, message, attr⟩

/-- The SpanGuard struct (src/lib.rs lines 334-340): it captures only
the message, the attr and the eagerly generated span id — no
armed/open/closed state of any kind. -/
structure SpanGuard where
  message : String
  attr : Option String
  span_id : Uuid
deriving DecidableEq, Repr

/-- SpanGuard::__enter__ (src/lib.rs lines 344-373): resolve the parent
from the pre-push stack (the inlined logic is identical to
get_current_parent_id), emit a type 1 record, then push the span id
onto the calling thread's stack (creating it when absent). -/
def SpanGuard.enter (g : SpanGuard) (tr : TracerInner) (tid : ThreadId)
    (now : Nat) : TracerInner × Record :=
  let current_pid := Tracer.get_current_parent_id tr tid
  let startRec : Record := ⟨g.span_id, current_pid, 1, now, g.message, g.attr⟩
  let states2 := mapSet tr.states tid (((mapGet tr.states tid).getD []) ++ [g.span_id])
  (⟨tr.initial_parent_id, states2⟩, startRec)

/-- SpanGuard::__exit__ (src/lib.rs lines 375-406): pop the top of the
calling thread's stack if the map holds one (Vec::pop on an empty vector
is a no-op), resolve the parent from the post-pop state (inlined logic
identical to get_current_parent_id), and emit a type 2 record under this
guard's span id.  Nothing is conditional on a prior enter. -/
def SpanGuard.exit (g : SpanGuard) (tr : TracerInner) (tid : ThreadId)
    (now : Nat) : TracerInner × Record :=
  let states1 :=
    match mapGet tr.states tid with
    | some stack => mapSet tr.states tid stack.dropLast
    | none => tr.states
  let tr1 : TracerInner := ⟨tr.initial_parent_id, states1⟩
  let current_pid := Tracer.get_current_parent_id tr1 tid
  (tr1, ⟨g.span_id, current_pid, 2, now, g.message, g.attr⟩)

-- ## Properly nested single-thread executions (claim C5)

/-- A properly nested single-thread execution: a sequence of span scopes
each entered once and exited once, with arbitrary nesting.  Entering and
exiting are performed by SpanGuard.enter and SpanGuard.exit below, so
proper nesting holds by construction. -/
inductive Prog where
  | empty : Prog
  | seq : Prog → Prog → Prog
  | scope : SpanGuard → Prog → Prog
deriving DecidableEq, Repr

/-- Execute a nested program on one thread through the embedded
SpanGuard operations, collecting the emitted records in order. -/
def runProg (tid : ThreadId) : TracerInner → Prog → TracerInner × List Record
  | tr, Prog.empty => (tr, [])
  | tr, Prog.seq p q =>
    let a := runProg tid tr p
    let b := runProg tid a.1 q
    (b.1, a.2 ++ b.2)
  | tr, Prog.scope g body =>
    let e := SpanGuard.enter g tr tid 0
    let m := runProg tid e.1 body
    let x := SpanGuard.exit g m.1 tid 0
    (x.1, e.2 :: (m.2 ++ [x.2]))

/-- The span ids of the scopes of a program, in entry order. -/
def spanIds : Prog → List Uuid
  | Prog.empty => []
  | Prog.seq p q => spanIds p ++ spanIds q
  | Prog.scope g body => g.span_id :: spanIds body

/-- Whether a record is the span-start record of span x. -/
def isStartOf (x : Uuid) (r : Record) : Bool :=
  decide (r.span_id = x) && decide (r.record_type = 1)

/-- Whether a record is the span-end record of span x. -/
def isEndOf (x : Uuid) (r : Record) : Bool :=
  decide (r.span_id = x) && decide (r.record_type = 2)

/-- The calling thread's effective stack: either the map holds exactly
this stack, or the map has no entry yet and the stack is empty (the two
states the tracer code does not distinguish). -/
def HasStack (tr : TracerInner) (tid : ThreadId) (s : List Uuid) : Prop :=
  mapGet tr.states tid = some s ∨ (mapGet tr.states tid = none ∧ s = [])

theorem digitChar_isDigit (n : Nat) : (digitChar n).isDigit = true := by
  unfold digitChar
  have h : n % 10 < 10 := Nat.mod_lt _ (by omega)
  generalize hk : n % 10 = k at h ⊢
  interval_cases k <;> decide

theorem formatYYYYMMDD_digits (d : LocalDate) :
    ∀ c ∈ (formatYYYYMMDD d).data, c.isDigit = true := by
  intro c hc
  have hc2 : c ∈ [digitChar (d.year / 1000), digitChar (d.year / 100),
      digitChar (d.year / 10), digitChar d.year, digitChar (d.month / 10),
      digitChar d.month, digitChar (d.day / 10), digitChar d.day] := hc
  simp only [List.mem_cons, List.not_mem_nil, or_false] at hc2
  rcases hc2 with h | h | h | h | h | h | h | h <;>
    (subst h; exact digitChar_isDigit _)

/-- C1: if the target database name (derived or caller-supplied) does
not already exist and contains a character that is not an ASCII
alphanumeric, initialization fails and the effect trace contains no
CREATE DATABASE statement.  In the code this holds because a derived
name is always eight ASCII digits, while a caller-supplied name skips
the maintenance block entirely and the pool connection to the
nonexistent database fails before any DDL. -/
theorem identifierSafety (world : PgWorld) (today : LocalDate)
    (bs : Option Nat) (nm : Option String)
    (_hyear : today.year ≤ 9999)
    (hnx : targetDbName today nm ∉ world.databases)
    (hbad : ∃ c ∈ (targetDbName today nm).data, c.isAlphanum = false) :
    exceptIsOk (RustDatabase.new world true today bs nm).1 = false ∧
    ∀ e ∈ (RustDatabase.new world true today bs nm).2,
      ∀ ddl, e ≠ InitEffect.createDatabase ddl := by
  cases nm with
  | none =>
    exfalso
    obtain ⟨c, hc, hbadc⟩ := hbad
    have hd : c.isDigit = true := formatYYYYMMDD_digits today c hc
    have : c.isAlphanum = true := by
      simp [Char.isAlphanum, hd]
    simp [this] at hbadc
  | some name =>
    have hnx2 : name ∉ world.databases := hnx
    constructor
    · simp [RustDatabase.new, hnx2, exceptIsOk]
    · intro e he ddl
      simp [RustDatabase.new, hnx2] at he
      simp [he]

/-- Witness for C1 at a concrete input: the supplied name bad-db does
not exist and contains a hyphen; initialization fails. -/
theorem identifierSafety_witness :
    exceptIsOk (RustDatabase.new ⟨["postgres"]⟩ true ⟨2026, 10, 12⟩ none (some "bad-db")).1 = false :=
  (identifierSafety ⟨["postgres"]⟩ ⟨2026, 10, 12⟩ none (some "bad-db")
    (by decide) (by decide) (by decide)).1

/-- C3 counterexample: with a caller-supplied name that does not exist,
initialization neither connects to the maintenance database, nor queries
existence, nor creates the database — contradicting the claim that every
initialization does so.  It fails at the pool connection instead. -/
theorem provisionSkipped_cex :
    RustDatabase.new ⟨["postgres"]⟩ true ⟨2026, 10, 12⟩ none (some "newdb") =
      (Except.error "Failed to create connection pool",
       [InitEffect.poolConnect "newdb"]) := by decide

/-- C3 amended: only an initialization with a derived (date-based) name
connects to the maintenance database postgres, queries whether the name
exists, and issues CREATE DATABASE when it does not; a caller-supplied
name is used verbatim and the whole maintenance block is skipped — the
pool connects directly to the supplied name. -/
theorem provisionPaths (world : PgWorld) (today : LocalDate) (bs : Option Nat)
    (hpg : "postgres" ∈ world.databases) :
    ((RustDatabase.new world true today bs none).2.head? =
       some (InitEffect.connectMaintenance "postgres")) ∧
    (formatYYYYMMDD today ∈ world.databases →
       InitEffect.queryDbExists (formatYYYYMMDD today) true
         ∈ (RustDatabase.new world true today bs none).2) ∧
    (formatYYYYMMDD today ∉ world.databases →
       InitEffect.queryDbExists (formatYYYYMMDD today) false
         ∈ (RustDatabase.new world true today bs none).2 ∧
       InitEffect.createDatabase ("CREATE DATABASE \"" ++ formatYYYYMMDD today ++ "\"")
         ∈ (RustDatabase.new world true today bs none).2) ∧
    (∀ nm, ∀ e ∈ (RustDatabase.new world true today bs (some nm)).2,
       (∀ x, e ≠ InitEffect.connectMaintenance x) ∧
       (∀ x b, e ≠ InitEffect.queryDbExists x b) ∧
       (∀ x, e ≠ InitEffect.createDatabase x)) := by
  refine ⟨?_, ?_, ?_, ?_⟩
  · by_cases hex : formatYYYYMMDD today ∈ world.databases <;>
      simp [RustDatabase.new, hpg, hex]
  · intro hex
    simp [RustDatabase.new, hpg, hex]
  · intro hex
    simp [RustDatabase.new, hpg, hex]
  · intro nm e he
    by_cases hex : nm ∈ world.databases
    · simp [RustDatabase.new, hex] at he
      rcases he with h2 | h2 <;> simp [h2]
    · simp [RustDatabase.new, hex] at he
      simp [he]

/-- Witness for C3 amended at a concrete input: on a server holding only
postgres, a derived-name initialization on 2026-10-12 issues the
existence query and the CREATE DATABASE statement. -/
theorem provisionPaths_witness :
    InitEffect.createDatabase ("CREATE DATABASE \"" ++ formatYYYYMMDD ⟨2026, 10, 12⟩ ++ "\"")
      ∈ (RustDatabase.new ⟨["postgres"]⟩ true ⟨2026, 10, 12⟩ none none).2 :=
  ((provisionPaths ⟨["postgres"]⟩ ⟨2026, 10, 12⟩ none (by decide)).2.2.1 (by decide)).2

/-- C4 counterexample: the schema the code executes differs from the
schema block of the spec: the timestamp column is TIMESTAMP without time
zone and carries no NOT NULL, and span_id and type also lack NOT NULL. -/
theorem schemaMismatch_cex :
    recordsColumns ≠ specRecordsColumns ∧
    recordsColumns.filter (fun c => c.colName == "timestamp") =
      [⟨"timestamp", SqlType.timestamp, false, false⟩] ∧
    specRecordsColumns.filter (fun c => c.colName == "timestamp") =
      [⟨"timestamp", SqlType.timestamptz, true, false⟩] ∧
    recordsColumns.filter (fun c => c.colName == "span_id") =
      [⟨"span_id", SqlType.uuid, false, false⟩] ∧
    recordsColumns.filter (fun c => c.colName == "type") =
      [⟨"type", SqlType.integer, false, false⟩] := by decide

/-- C4 amended: the executed schema has the column names of the spec
schema in the same order, but no column carries an explicit NOT NULL and
the timestamp column has type TIMESTAMP (without time zone) rather than
TIMESTAMPTZ; the index on records(parent_id) is created as stated. -/
theorem schemaActual :
    recordsColumns.map SqlColumn.colName = specRecordsColumns.map SqlColumn.colName ∧
    recordsColumns.map SqlColumn.notNull = [false, false, false, false, false, false, false] ∧
    recordsColumns.map SqlColumn.colType =
      [SqlType.bigserial, SqlType.uuid, SqlType.uuid, SqlType.integer,
       SqlType.timestamp, SqlType.text, SqlType.jsonb] ∧
    recordsIndex.table = "records" ∧ recordsIndex.column = "parent_id" := by decide

/-- C7: the first call to initialize, when the handle builds
successfully, stores the handle in the registry slot and returns the
effective database name; any call that finds a non-empty slot fails with
the already-initialized error and leaves the slot unchanged. -/
theorem registryOneShot (world : PgWorld) (parseOk : Bool) (today : LocalDate)
    (bs : Option Nat) (nm : Option String) (h : InitOk)
    (hbuild : (RustDatabase.new world parseOk today bs nm).1 = Except.ok h) :
    initRegistry none world parseOk today bs nm = (some h, Except.ok h.db_name) ∧
    (∀ (h2 : InitOk) (world2 : PgWorld) (p2 : Bool) (t2 : LocalDate)
       (b2 : Option Nat) (n2 : Option String),
       initRegistry (some h2) world2 p2 t2 b2 n2 =
         (some h2, Except.error "Database already initialized")) := by
  constructor
  · simp [initRegistry, hbuild]
  · intro h2 world2 p2 t2 b2 n2
    rfl

/-- Witness for C7 at a concrete input: first call stores the handle and
returns the name; a second call is rejected without touching the slot. -/
theorem registryOneShot_witness :
    initRegistry none ⟨["postgres", "mydb"]⟩ true ⟨2026, 10, 12⟩ none (some "mydb") =
      (some ⟨"mydb", 1024⟩, Except.ok "mydb") ∧
    initRegistry (some ⟨"mydb", 1024⟩) ⟨["postgres", "mydb"]⟩ true ⟨2026, 10, 12⟩ none (some "mydb") =
      (some ⟨"mydb", 1024⟩, Except.error "Database already initialized") := by
  have h := registryOneShot ⟨["postgres", "mydb"]⟩ true ⟨2026, 10, 12⟩ none
    (some "mydb") ⟨"mydb", 1024⟩ (by decide)
  exact ⟨h.1, h.2 ⟨"mydb", 1024⟩ _ _ _ _ _⟩

theorem flushRows_mem (parse : String → Option JsonValue) (execOk : Nat → Bool) :
    ∀ (l : List Record) (i : Nat) (r : Record) (s : String),
      r ∈ l → r.attr = some s → parse s = none →
      FlushEffect.warnAttrParse s ∈ flushRows parse execOk i l ∧
      FlushEffect.insert r none ∈ flushRows parse execOk i l := by
  intro l
  induction l with
  | nil => intro i r s hr; cases hr
  | cons a rest ih =>
    intro i r s hr ha hp
    rcases List.mem_cons.mp hr with h | h
    · subst h
      constructor <;>
        · simp only [flushRows, ha, hp]
          simp
    · have h2 := ih (i + 1) r s h ha hp
      constructor <;>
        · simp only [flushRows]
          rcases a.attr with _ | s2
          · simp [h2.1, h2.2]
          · rcases parse s2 with _ | v <;> simp [h2.1, h2.2]

theorem flushRows_insertCount (parse : String → Option JsonValue) (execOk : Nat → Bool) :
    ∀ (l : List Record) (i : Nat),
      (flushRows parse execOk i l).countP isInsertEff = l.length := by
  intro l
  induction l with
  | nil => intro i; rfl
  | cons a rest ih =>
    intro i
    simp only [flushRows, List.countP_append]
    have h2 := ih (i + 1)
    cases ha : a.attr with
    | none =>
      by_cases he : execOk i <;>
        simp [he, h2, isInsertEff, List.countP_cons] <;> omega
    | some s2 =>
      cases hp : parse s2 with
      | none =>
        by_cases he : execOk i <;>
          simp [hp, he, h2, isInsertEff, List.countP_cons] <;> omega
      | some v =>
        by_cases he : execOk i <;>
          simp [hp, he, h2, isInsertEff, List.countP_cons] <;> omega

theorem flushRows_execFail (parse : String → Option JsonValue) (execOk : Nat → Bool) :
    ∀ (l : List Record) (i0 i : Nat) (r : Record),
      l.get? i = some r → execOk (i0 + i) = false →
      FlushEffect.warnInsertFailed r ∈ flushRows parse execOk i0 l := by
  intro l
  induction l with
  | nil => intro i0 i r hg; cases hg
  | cons a rest ih =>
    intro i0 i r hg he
    cases i with
    | zero =>
      have ha : a = r := by simpa using hg
      subst ha
      have he0 : execOk i0 = false := by simpa using he
      simp only [flushRows, he0]
      rcases a.attr with _ | s2
      · simp
      · rcases parse s2 with _ | v <;> simp
    | succ j =>
      have hg2 : rest.get? j = some r := by simpa using hg
      have he2 : execOk (i0 + 1 + j) = false := by
        have : i0 + 1 + j = i0 + (j + 1) := by omega
        rw [this]; exact he
      have h2 := ih (i0 + 1) j r hg2 he2
      simp only [flushRows]
      rcases a.attr with _ | s2
      · simp [h2]
      · rcases parse s2 with _ | v <;> simp [h2]

/-- C8: during a flush that obtains a connection, every buffered record
whose attr string fails to parse as JSON produces a diagnostic warning
and is still inserted, with the attr parameter bound to NULL: the parse
failure does not drop the record. -/
theorem attrParseNonFatal (parse : String → Option JsonValue)
    (execOk : Nat → Bool) (batch : List Record) (r : Record) (s : String)
    (hr : r ∈ batch) (ha : r.attr = some s) (hp : parse s = none) :
    FlushEffect.warnAttrParse s ∈ (flush_batch parse true execOk batch).2 ∧
    FlushEffect.insert r none ∈ (flush_batch parse true execOk batch).2 := by
  have hne : batch.isEmpty = false := by
    cases batch with
    | nil => cases hr
    | cons a l => rfl
  have h := flushRows_mem parse execOk batch 0 r s hr ha hp
  simpa [flush_batch, hne] using h

/-- Witness for C8 at a concrete input. -/
theorem attrParseNonFatal_witness :
    FlushEffect.insert ⟨⟨1⟩, ⟨0⟩, 0, 0, "m", some "notjson"⟩ none ∈
      (flush_batch (fun _ => none) true (fun _ => true)
        [⟨⟨1⟩, ⟨0⟩, 0, 0, "m", some "notjson"⟩]).2 :=
  (attrParseNonFatal (fun _ => none) (fun _ => true)
    [⟨⟨1⟩, ⟨0⟩, 0, 0, "m", some "notjson"⟩] ⟨⟨1⟩, ⟨0⟩, 0, 0, "m", some "notjson"⟩
    "notjson" (by decide) rfl rfl).2

/-- C9 counterexample: when pool acquisition fails, flush_batch logs the
failure but leaves the batch intact — after that flush the batch is not
truncated to empty, contradicting the claim that it is after every
flush. -/
theorem flushTruncation_cex :
    (flush_batch (fun _ => none) false (fun _ => true)
      [⟨⟨1⟩, ⟨0⟩, 0, 0, "m", none⟩]).1 = [⟨⟨1⟩, ⟨0⟩, 0, 0, "m", none⟩] ∧
    (flush_batch (fun _ => none) false (fun _ => true)
      [⟨⟨1⟩, ⟨0⟩, 0, 0, "m", none⟩]).2 = [FlushEffect.warnPoolFailed] ∧
    ([⟨⟨1⟩, ⟨0⟩, 0, 0, "m", none⟩] : List Record) ≠ [] := by decide

/-- C9 amended: during a flush that obtains a connection, a per-row
insert failure is logged and the row dropped while every row of the
batch is still attempted, and the batch is cleared afterwards; when pool
acquisition fails, the failure is logged and not surfaced but the batch
is left intact, to be retried at the next flush, rather than truncated
to empty. -/
theorem flushBatchBehavior :
    (∀ (parse : String → Option JsonValue) (execOk : Nat → Bool) (batch : List Record),
       (flush_batch parse true execOk batch).1 = []) ∧
    (∀ (parse : String → Option JsonValue) (execOk : Nat → Bool) (batch : List Record),
       (flush_batch parse false execOk batch).1 = batch ∧
       (flush_batch parse false execOk batch).2 =
         if batch.isEmpty then [] else [FlushEffect.warnPoolFailed]) ∧
    (∀ (parse : String → Option JsonValue) (execOk : Nat → Bool) (batch : List Record),
       (flush_batch parse true execOk batch).2.countP isInsertEff = batch.length) ∧
    (∀ (parse : String → Option JsonValue) (execOk : Nat → Bool) (batch : List Record)
       (i : Nat) (r : Record), batch.get? i = some r → execOk i = false →
       FlushEffect.warnInsertFailed r ∈ (flush_batch parse true execOk batch).2) := by
  refine ⟨?_, ?_, ?_, ?_⟩
  · intro parse execOk batch
    cases batch with
    | nil => rfl
    | cons a l => rfl
  · intro parse execOk batch
    cases batch with
    | nil => exact ⟨rfl, rfl⟩
    | cons a l => exact ⟨rfl, rfl⟩
  · intro parse execOk batch
    cases batch with
    | nil => rfl
    | cons a l =>
      have h := flushRows_insertCount parse execOk (a :: l) 0
      simpa [flush_batch] using h
  · intro parse execOk batch i r hg he
    have hne : batch.isEmpty = false := by
      cases batch with
      | nil => cases hg
      | cons a l => rfl
    have h := flushRows_execFail parse execOk batch 0 i r hg (by simpa using he)
    simpa [flush_batch, hne] using h

/-- Witness for C9 amended at a concrete input: a failing insert of the
only row is logged. -/
theorem flushBatchBehavior_witness :
    FlushEffect.warnInsertFailed ⟨⟨1⟩, ⟨0⟩, 0, 0, "m", none⟩ ∈
      (flush_batch (fun _ => none) true (fun _ => false)
        [⟨⟨1⟩, ⟨0⟩, 0, 0, "m", none⟩]).2 :=
  flushBatchBehavior.2.2.2 (fun _ => none) (fun _ => false)
    [⟨⟨1⟩, ⟨0⟩, 0, 0, "m", none⟩] 0 ⟨⟨1⟩, ⟨0⟩, 0, 0, "m", none⟩ rfl rfl

/-- C2 counterexample: with default batch size 1024, after receiving one
record the channel reports closed; the batch is non-empty yet the writer
returns with no flush_batch call — the accumulated record is dropped,
contradicting the claim that the closed branch flushes a non-empty
batch. -/
theorem writerClosed_cex :
    writerRun (fun _ => none) (fun _ => true) (fun _ _ => true) 1024
      [BatchCommand.record ⟨⟨1⟩, ⟨0⟩, 0, 0, "m", none⟩] =
      ⟨[], [], [⟨⟨1⟩, ⟨0⟩, 0, 0, "m", none⟩]⟩ ∧
    ([⟨⟨1⟩, ⟨0⟩, 0, 0, "m", none⟩] : List Record) ≠ [] := by decide

/-- C2 amended: when the blocking receive reports the channel closed,
the writer thread returns immediately without flushing, whatever the
accumulated batch holds; only the Shutdown command flushes a non-empty
batch before returning (and the destructor sends Shutdown before the
channel can close). -/
theorem writerClosedBehavior :
    ∀ (parse : String → Option JsonValue) (poolOk : Nat → Bool)
      (execOk : Nat → Nat → Bool) (B : Nat) (batch : List Record),
      writerRunFrom parse poolOk execOk B batch [] = ⟨[], [], batch⟩ ∧
      (writerRunFrom parse poolOk execOk B batch [BatchCommand.shutdown]).flushCalls =
        (if batch.isEmpty then [] else [batch]) := by
  intro parse poolOk execOk B batch
  constructor
  · rfl
  · by_cases hb : batch.isEmpty <;>
      simp [writerRunFrom, writerGo, hb]

theorem mapGet_mapSet_self (m : List (ThreadId × List Uuid)) (t : ThreadId)
    (s : List Uuid) : mapGet (mapSet m t s) t = some s := by
  induction m with
  | nil => simp [mapSet, mapGet]
  | cons a rest ih =>
    by_cases h : a.1 = t
    · simp [mapSet, mapGet, h]
    · simp [mapSet, mapGet, h, ih]

/-- C6: get_current_parent_id returns the stack top when the calling
thread has a non-empty stack and the initial parent otherwise, and
consequently, with nested scopes A outside B on one thread, the records
of B carry parent A.span_id, a log after B closes carries parent
A.span_id, and a log after A closes carries the initial parent. -/
theorem currentParentAmbient :
    (∀ (tr : TracerInner) (tid : ThreadId) (st : List Uuid) (x : Uuid),
       mapGet tr.states tid = some st → st.getLast? = some x →
       Tracer.get_current_parent_id tr tid = x) ∧
    (∀ (tr : TracerInner) (tid : ThreadId),
       (mapGet tr.states tid = none ∨ mapGet tr.states tid = some []) →
       Tracer.get_current_parent_id tr tid = tr.initial_parent_id) ∧
    (∀ (ipid a b lg1 lg2 : Uuid) (mA mB : String),
       (SpanGuard.enter ⟨mB, none, b⟩
         (SpanGuard.enter ⟨mA, none, a⟩ ⟨ipid, []⟩ 0 0).1 0 0).2.parent_id = a ∧
       (SpanGuard.exit ⟨mB, none, b⟩
         (SpanGuard.enter ⟨mB, none, b⟩
           (SpanGuard.enter ⟨mA, none, a⟩ ⟨ipid, []⟩ 0 0).1 0 0).1 0 0).2.parent_id = a ∧
       (Tracer.log
         (SpanGuard.exit ⟨mB, none, b⟩
           (SpanGuard.enter ⟨mB, none, b⟩
             (SpanGuard.enter ⟨mA, none, a⟩ ⟨ipid, []⟩ 0 0).1 0 0).1 0 0).1
         0 lg1 0 "after B" none).parent_id = a ∧
       (Tracer.log
         (SpanGuard.exit ⟨mA, none, a⟩
           (SpanGuard.exit ⟨mB, none, b⟩
             (SpanGuard.enter ⟨mB, none, b⟩
               (SpanGuard.enter ⟨mA, none, a⟩ ⟨ipid, []⟩ 0 0).1 0 0).1 0 0).1 0 0).1
         0 lg2 0 "after A" none).parent_id = ipid) := by
  refine ⟨?_, ?_, ?_⟩
  · intro tr tid st x h1 h2
    simp [Tracer.get_current_parent_id, h1, h2]
  · intro tr tid h
    rcases h with h | h <;> simp [Tracer.get_current_parent_id, h]
  · intro ipid a b lg1 lg2 mA mB
    refine ⟨rfl, rfl, rfl, rfl⟩

/-- Witness for C6 at a concrete input: a non-empty stack resolves to
its top. -/
theorem currentParentAmbient_witness :
    Tracer.get_current_parent_id ⟨⟨3⟩, [(0, [⟨5⟩])]⟩ 0 = ⟨5⟩ :=
  currentParentAmbient.1 ⟨⟨3⟩, [(0, [⟨5⟩])]⟩ 0 [⟨5⟩] ⟨5⟩ rfl rfl

/-- C10: SpanGuard::__exit__ pops and emits unconditionally: with no
armed/open/closed state in the guard, an exit finding any top element on
the calling thread's stack — here one that is not this guard's span id —
still pops it and still emits a type 2 record under this guard's span
id. -/
theorem exitUnconditional (tr : TracerInner) (tid : ThreadId) (g : SpanGuard)
    (n : Nat) (rest : List Uuid) (top : Uuid)
    (h : mapGet tr.states tid = some (rest ++ [top]))
    (_hne : top ≠ g.span_id) :
    mapGet ((g.exit tr tid n).1).states tid = some rest ∧
    ((g.exit tr tid n).2).record_type = 2 ∧
    ((g.exit tr tid n).2).span_id = g.span_id := by
  refine ⟨?_, rfl, rfl⟩
  simp [SpanGuard.exit, h, mapGet_mapSet_self]

/-- Witness for C10 at a concrete input: a guard with span id 7 exits
while the stack top is 5; the 5 is popped and a type 2 record with span
id 7 is emitted. -/
theorem exitUnconditional_witness :
    mapGet ((SpanGuard.exit ⟨"m", none, ⟨7⟩⟩ ⟨⟨0⟩, [(0, [⟨5⟩])]⟩ 0 0).1).states 0 = some [] ∧
    ((SpanGuard.exit ⟨"m", none, ⟨7⟩⟩ ⟨⟨0⟩, [(0, [⟨5⟩])]⟩ 0 0).2).record_type = 2 ∧
    ((SpanGuard.exit ⟨"m", none, ⟨7⟩⟩ ⟨⟨0⟩, [(0, [⟨5⟩])]⟩ 0 0).2).span_id = ⟨7⟩ :=
  exitUnconditional ⟨⟨0⟩, [(0, [⟨5⟩])]⟩ 0 ⟨"m", none, ⟨7⟩⟩ 0 [] ⟨5⟩ (by decide) (by decide)

theorem runProg_seq (tid : ThreadId) (tr : TracerInner) (p q : Prog) :
    runProg tid tr (Prog.seq p q) =
      ((runProg tid (runProg tid tr p).1 q).1,
       (runProg tid tr p).2 ++ (runProg tid (runProg tid tr p).1 q).2) := rfl

theorem runProg_scope (tid : ThreadId) (tr : TracerInner) (g : SpanGuard)
    (body : Prog) :
    runProg tid tr (Prog.scope g body) =
      ((SpanGuard.exit g (runProg tid (SpanGuard.enter g tr tid 0).1 body).1 tid 0).1,
       (SpanGuard.enter g tr tid 0).2 ::
         ((runProg tid (SpanGuard.enter g tr tid 0).1 body).2 ++
          [(SpanGuard.exit g (runProg tid (SpanGuard.enter g tr tid 0).1 body).1 tid 0).2])) := rfl

theorem hasStack_some (tr : TracerInner) (tid : ThreadId) (s : List Uuid)
    (h : HasStack tr tid s) (hne : s ≠ []) : mapGet tr.states tid = some s := by
  rcases h with h | ⟨h2, hs⟩
  · exact h
  · exact absurd hs hne

theorem gcpi_hasStack (tr : TracerInner) (tid : ThreadId) (s : List Uuid)
    (h : HasStack tr tid s) :
    Tracer.get_current_parent_id tr tid = (s.getLast?).getD tr.initial_parent_id := by
  rcases h with h | ⟨h, hs⟩
  · simp only [Tracer.get_current_parent_id, h]
    cases hl : s.getLast? <;> simp [hl]
  · subst hs
    simp [Tracer.get_current_parent_id, h]

theorem enter_spec (g : SpanGuard) (tr : TracerInner) (tid : ThreadId) (n : Nat)
    (s : List Uuid) (h : HasStack tr tid s) :
    (SpanGuard.enter g tr tid n).1.initial_parent_id = tr.initial_parent_id ∧
    mapGet (SpanGuard.enter g tr tid n).1.states tid = some (s ++ [g.span_id]) ∧
    (SpanGuard.enter g tr tid n).2 =
      ⟨g.span_id, (s.getLast?).getD tr.initial_parent_id, 1, n, g.message, g.attr⟩ := by
  have hd : (mapGet tr.states tid).getD [] = s := by
    rcases h with h | ⟨h, hs⟩
    · simp [h]
    · simp [h, hs]
  refine ⟨rfl, ?_, ?_⟩
  · simp [SpanGuard.enter, hd, mapGet_mapSet_self]
  · have h3 := gcpi_hasStack tr tid s h
    simp [SpanGuard.enter, h3]

theorem exit_spec (g : SpanGuard) (tr : TracerInner) (tid : ThreadId) (n : Nat)
    (s : List Uuid) (h : mapGet tr.states tid = some s) :
    (SpanGuard.exit g tr tid n).1.initial_parent_id = tr.initial_parent_id ∧
    mapGet (SpanGuard.exit g tr tid n).1.states tid = some s.dropLast ∧
    (SpanGuard.exit g tr tid n).2 =
      ⟨g.span_id, (s.dropLast.getLast?).getD tr.initial_parent_id, 2, n,
       g.message, g.attr⟩ := by
  have h2 : mapGet (SpanGuard.exit g tr tid n).1.states tid = some s.dropLast := by
    simp [SpanGuard.exit, h, mapGet_mapSet_self]
  refine ⟨rfl, h2, ?_⟩
  have h3 := gcpi_hasStack (SpanGuard.exit g tr tid n).1 tid s.dropLast (Or.inl h2)
  have h4 : (SpanGuard.exit g tr tid n).2 =
      ⟨g.span_id, Tracer.get_current_parent_id (SpanGuard.exit g tr tid n).1 tid,
       2, n, g.message, g.attr⟩ := rfl
  rw [h4, h3]
  rfl

theorem runProg_state (tid : ThreadId) :
    ∀ (p : Prog) (tr : TracerInner) (s : List Uuid), HasStack tr tid s →
      HasStack (runProg tid tr p).1 tid s ∧
      (runProg tid tr p).1.initial_parent_id = tr.initial_parent_id := by
  intro p
  induction p with
  | empty => intro tr s h; exact ⟨h, rfl⟩
  | seq p q ihp ihq =>
    intro tr s h
    have h1 := ihp tr s h
    have h2 := ihq (runProg tid tr p).1 s h1.1
    rw [runProg_seq]
    exact ⟨h2.1, by rw [h2.2, h1.2]⟩
  | scope g body ih =>
    intro tr s h
    have he := enter_spec g tr tid 0 s h
    have hm := ih (SpanGuard.enter g tr tid 0).1 (s ++ [g.span_id]) (Or.inl he.2.1)
    have hmg : mapGet (runProg tid (SpanGuard.enter g tr tid 0).1 body).1.states tid =
        some (s ++ [g.span_id]) :=
      hasStack_some _ tid _ hm.1 (by simp)
    have hx := exit_spec g (runProg tid (SpanGuard.enter g tr tid 0).1 body).1 tid 0
      (s ++ [g.span_id]) hmg
    rw [runProg_scope]
    constructor
    · left
      rw [hx.2.1]
      simp
    · rw [hx.1, hm.2, he.1]

theorem runProg_countP (tid : ThreadId) :
    ∀ (p : Prog) (tr : TracerInner) (s : List Uuid), HasStack tr tid s →
      ∀ (x : Uuid),
      ((runProg tid tr p).2.countP (isStartOf x) =
        (spanIds p).countP (fun y => decide (y = x))) ∧
      ((runProg tid tr p).2.countP (isEndOf x) =
        (spanIds p).countP (fun y => decide (y = x))) := by
  intro p
  induction p with
  | empty => intro tr s h x; exact ⟨rfl, rfl⟩
  | seq p q ihp ihq =>
    intro tr s h x
    have hst := runProg_state tid p tr s h
    have h1 := ihp tr s h x
    have h2 := ihq (runProg tid tr p).1 s hst.1 x
    rw [runProg_seq]
    simp only [spanIds, List.countP_append]
    exact ⟨by rw [h1.1, h2.1], by rw [h1.2, h2.2]⟩
  | scope g body ih =>
    intro tr s h x
    have he := enter_spec g tr tid 0 s h
    have hm := ih (SpanGuard.enter g tr tid 0).1 (s ++ [g.span_id]) (Or.inl he.2.1) x
    have hst := runProg_state tid body (SpanGuard.enter g tr tid 0).1 (s ++ [g.span_id])
      (Or.inl he.2.1)
    have hmg : mapGet (runProg tid (SpanGuard.enter g tr tid 0).1 body).1.states tid =
        some (s ++ [g.span_id]) :=
      hasStack_some _ tid _ hst.1 (by simp)
    have hx := exit_spec g (runProg tid (SpanGuard.enter g tr tid 0).1 body).1 tid 0
      (s ++ [g.span_id]) hmg
    rw [runProg_scope]
    simp only [spanIds, List.countP_cons, List.countP_append, he.2.2, hx.2.2]
    constructor
    · by_cases hgx : g.span_id = x <;>
        simp [isStartOf, isEndOf, hgx, hm.1, hm.2]
    · by_cases hgx : g.span_id = x <;>
        simp [isStartOf, isEndOf, hgx, hm.1, hm.2]

theorem countP_zero_of_not_mem (l : List Uuid) (x : Uuid) (h : x ∉ l) :
    l.countP (fun y => decide (y = x)) = 0 := by
  induction l with
  | nil => rfl
  | cons a rest ih =>
    have ha : a ≠ x := fun hc => h (by simp [hc])
    have h2 : x ∉ rest := fun hc => h (by simp [hc])
    simp [List.countP_cons, ha, ih h2]

theorem filter_nil_of_countP_zero {α : Type} (p : α → Bool) (l : List α)
    (h : l.countP p = 0) : l.filter p = [] := by
  rw [List.countP_eq_length_filter] at h
  exact List.length_eq_zero.mp h

/-- C5: in a properly nested single-thread execution whose scopes carry
distinct span ids, every scope entered once and exited once yields
exactly one type 1 and exactly one type 2 record under its span id, and
the parent ids of the two records are equal: the entry parent is
resolved before the push and the exit parent after the pop, and the
stack returns to its pre-entry state, so both resolve to the same
value. -/
theorem spanPairing (tid : ThreadId) :
    ∀ (p : Prog) (tr : TracerInner) (s : List Uuid), HasStack tr tid s →
      (spanIds p).Nodup → ∀ (x : Uuid), x ∈ spanIds p →
      ∃ par : Uuid,
        ((runProg tid tr p).2.filter (isStartOf x)).map Record.parent_id = [par] ∧
        ((runProg tid tr p).2.filter (isEndOf x)).map Record.parent_id = [par] := by
  intro p
  induction p with
  | empty => intro tr s h hnd x hx; cases hx
  | seq p q ihp ihq =>
    intro tr s h hnd x hx
    have hst := runProg_state tid p tr s h
    rw [runProg_seq]
    simp only [spanIds] at hnd hx
    rw [List.nodup_append] at hnd
    obtain ⟨ndp, ndq, hdisj⟩ := hnd
    rcases List.mem_append.mp hx with hxl | hxr
    · obtain ⟨par, h1, h2⟩ := ihp tr s h ndp x hxl
      have hnq : x ∉ spanIds q := fun hc => hdisj hxl hc
      have hcnt := runProg_countP tid q (runProg tid tr p).1 s hst.1 x
      have hz := countP_zero_of_not_mem (spanIds q) x hnq
      have hf1 : (runProg tid (runProg tid tr p).1 q).2.filter (isStartOf x) = [] :=
        filter_nil_of_countP_zero _ _ (by rw [hcnt.1, hz])
      have hf2 : (runProg tid (runProg tid tr p).1 q).2.filter (isEndOf x) = [] :=
        filter_nil_of_countP_zero _ _ (by rw [hcnt.2, hz])
      refine ⟨par, ?_, ?_⟩ <;>
        simp [List.filter_append, hf1, hf2, h1, h2]
    · obtain ⟨par, h1, h2⟩ := ihq (runProg tid tr p).1 s hst.1 ndq x hxr
      have hnp : x ∉ spanIds p := fun hc => hdisj hc hxr
      have hcnt := runProg_countP tid p tr s h x
      have hz := countP_zero_of_not_mem (spanIds p) x hnp
      have hf1 : (runProg tid tr p).2.filter (isStartOf x) = [] :=
        filter_nil_of_countP_zero _ _ (by rw [hcnt.1, hz])
      have hf2 : (runProg tid tr p).2.filter (isEndOf x) = [] :=
        filter_nil_of_countP_zero _ _ (by rw [hcnt.2, hz])
      refine ⟨par, ?_, ?_⟩ <;>
        simp [List.filter_append, hf1, hf2, h1, h2]
  | scope g body ih =>
    intro tr s h hnd x hx
    have he := enter_spec g tr tid 0 s h
    have hst := runProg_state tid body (SpanGuard.enter g tr tid 0).1 (s ++ [g.span_id])
      (Or.inl he.2.1)
    have hmg : mapGet (runProg tid (SpanGuard.enter g tr tid 0).1 body).1.states tid =
        some (s ++ [g.span_id]) :=
      hasStack_some _ tid _ hst.1 (by simp)
    have hxs := exit_spec g (runProg tid (SpanGuard.enter g tr tid 0).1 body).1 tid 0
      (s ++ [g.span_id]) hmg
    have hinit : (runProg tid (SpanGuard.enter g tr tid 0).1 body).1.initial_parent_id =
        tr.initial_parent_id := by
      rw [hst.2, he.1]
    rw [runProg_scope]
    simp only [spanIds] at hnd hx
    rw [List.nodup_cons] at hnd
    obtain ⟨hgnotin, ndb⟩ := hnd
    have hdrop : (s ++ [g.span_id]).dropLast = s := List.dropLast_concat
    rcases List.mem_cons.mp hx with hxg | hxb
    · subst hxg
      have hcnt := runProg_countP tid body (SpanGuard.enter g tr tid 0).1
        (s ++ [g.span_id]) (Or.inl he.2.1) g.span_id
      have hz := countP_zero_of_not_mem (spanIds body) g.span_id hgnotin
      have hb1 : (runProg tid (SpanGuard.enter g tr tid 0).1 body).2.filter
          (isStartOf g.span_id) = [] :=
        filter_nil_of_countP_zero _ _ (by rw [hcnt.1, hz])
      have hb2 : (runProg tid (SpanGuard.enter g tr tid 0).1 body).2.filter
          (isEndOf g.span_id) = [] :=
        filter_nil_of_countP_zero _ _ (by rw [hcnt.2, hz])
      rw [he.2.2, hxs.2.2, hinit, hdrop]
      refine ⟨(s.getLast?).getD tr.initial_parent_id, ?_, ?_⟩
      · rw [List.filter_cons, List.filter_append, hb1]
        simp [isStartOf, isEndOf]
      · rw [List.filter_cons, List.filter_append, hb2]
        simp [isStartOf, isEndOf]
    · have hxg : x ≠ g.span_id := fun hc => hgnotin (hc ▸ hxb)
      have hgx : g.span_id ≠ x := Ne.symm hxg
      obtain ⟨par, h1, h2⟩ := ih (SpanGuard.enter g tr tid 0).1 (s ++ [g.span_id])
        (Or.inl he.2.1) ndb x hxb
      rw [he.2.2, hxs.2.2, hinit, hdrop]
      refine ⟨par, ?_, ?_⟩
      · rw [List.filter_cons, List.filter_append]
        simp [isStartOf, isEndOf, hgx, h1]
      · rw [List.filter_cons, List.filter_append]
        simp [isStartOf, isEndOf, hgx, h2]

/-- Witness for C5 at a concrete input: one scope with span id 1 run on
a fresh tracer yields exactly one start and one end record with equal
parent ids. -/
theorem spanPairing_witness :
    ∃ par : Uuid,
      ((runProg 0 ⟨⟨0⟩, []⟩ (Prog.scope ⟨"m", none, ⟨1⟩⟩ Prog.empty)).2.filter
        (isStartOf ⟨1⟩)).map Record.parent_id = [par] ∧
      ((runProg 0 ⟨⟨0⟩, []⟩ (Prog.scope ⟨"m", none, ⟨1⟩⟩ Prog.empty)).2.filter
        (isEndOf ⟨1⟩)).map Record.parent_id = [par] :=
  spanPairing 0 (Prog.scope ⟨"m", none, ⟨1⟩⟩ Prog.empty) ⟨⟨0⟩, []⟩ []
    (Or.inr ⟨rfl, rfl⟩) (by decide) ⟨1⟩ (by decide)
